import Mathlib

set_option maxHeartbeats 1000000

/-! Shallow embedding of vm/src/obj/objiter.rs: the generic iteration protocol
of a Python-like virtual machine.  Protocol functions (get_next_object,
get_all, new_stop_iteration) and the generic cursor iterator PyIteratorValue
with its advance (next) and iteration-start (iter) capabilities. -/

/-- Modelled from the spec: the host runtime's exception kinds (classes), which
live in the missing pyobject/objtype modules.  Only the StopIteration sentinel
kind is recognized by this core; every other kind is opaque and represented by
its name. -/
inductive ExcKind where
  | stopIteration : ExcKind
  | other : String → ExcKind
deriving DecidableEq

/-- Modelled from the spec: an exception value of the host runtime as this core
sees it: its kind (class) and a descriptive message.  Construction is done by
vm.new_exception of the missing pyobject module. -/
structure PyException where
  kind : ExcKind
  msg : String
deriving DecidableEq

/-- Modelled from the spec: objtype::isinstance (the missing objtype module),
restricted to the single check this core performs: whether an exception value
is of the iteration-exhausted sentinel kind. -/
def isinstance_stop_iteration (e : PyException) : Bool :=
  e.kind == ExcKind.stopIteration

/-- Modelled from the spec: a runtime value as produced by iteration: either an
integer object (what vm.ctx.new_int builds) or some other opaque object
identified by an id. -/
inductive PyValue where
  | int : Int → PyValue
  | obj : Nat → PyValue
deriving DecidableEq

/-- Modelled from the spec: vm.ctx.new_int of the missing pyobject module,
wrapping an integer as a runtime value. -/
def new_int (n : Int) : PyValue :=
  PyValue.int n

/-- PyResult of the source: a produced value or a raised exception. -/
abbrev PyResult (α : Type) := Except PyException α

/-- Modelled from the spec: objrange's PyRange is not among the sources; the
spec describes a numeric range as a finite ordered integer container with an
optional-returning lookup by logical index (direction and step are folded into
the logical element order).  It is modelled by its ordered list of elements. -/
structure PyRange where
  elems : List Int
deriving DecidableEq

/-- Modelled from the spec: PyRange::get returns the integer at logical index i
when the range has one, and nothing otherwise. -/
def PyRange.get (r : PyRange) (i : Nat) : Option Int :=
  r.elems.get? i

/-- The payload of the object walked by the generic cursor: a numeric range, a
raw byte sequence (PyBytes), a mutable byte buffer (PyByteArray, represented by
the current contents of its cell at the time of the call), or any other
container exposing an ordered-elements view (the objsequence fallback). -/
inductive PyObject where
  | range : PyRange → PyObject
  | bytes : List Nat → PyObject
  | bytearray : List Nat → PyObject
  | sequence : List PyValue → PyObject
deriving DecidableEq

/-- The payload::<PyRange> downcast. -/
def payload_range : PyObject → Option PyRange
  | PyObject.range r => some r
  | _ => none

/-- The payload::<PyBytes> downcast. -/
def payload_bytes : PyObject → Option (List Nat)
  | PyObject.bytes bs => some bs
  | _ => none

/-- The payload::<PyByteArray> downcast, giving the borrow of the buffer's
current contents. -/
def payload_bytearray : PyObject → Option (List Nat)
  | PyObject.bytearray bs => some bs
  | _ => none

/-- Modelled from the spec: objsequence::get_elements (the missing objsequence
module), the ordered-elements view of a generic sequence container.  In the
advance it is only reached for containers that are none of the three specially
recognized kinds. -/
def get_elements : PyObject → List PyValue
  | PyObject.sequence es => es
  | _ => []

/-- Modelled from the spec: vm.new_exception of the missing pyobject module
constructs an exception value of the given kind carrying the given message. -/
def new_exception (kind : ExcKind) (msg : String) : PyException :=
  { kind := kind, msg := msg }

/-- new_stop_iteration of the source: a StopIteration exception carrying the
fixed message. -/
def new_stop_iteration : PyException :=
  new_exception ExcKind.stopIteration "End of iterator"

/-- get_next_object of the source: inspect the result of calling the advance
capability; a value becomes some value, a StopIteration error becomes none, any
other error propagates unchanged. -/
def get_next_object (next_obj : PyResult PyValue) : PyResult (Option PyValue) :=
  match next_obj with
  | Except.ok value => Except.ok (some value)
  | Except.error next_error =>
    if isinstance_stop_iteration next_error then Except.ok none
    else Except.error next_error

/-- get_all of the source, with explicit fuel standing for the unbounded loop:
repeatedly retrieve the next object (or none) through get_next_object,
accumulate produced values in production order, stop at none, propagate any
non-sentinel error.  The iterator the loop advances is any dispatchable
iterator, given by its state type and the behavior of one advance call; a none
overall result means the fuel ran out before the loop finished. -/
def get_all {σ : Type} (step : σ → PyResult PyValue × σ) :
    Nat → σ → Option (PyResult (List PyValue) × σ)
  | 0, _ => none
  | fuel + 1, s =>
    match step s with
    | (next_obj, s2) =>
      match get_next_object next_obj with
      | Except.error e => some (Except.error e, s2)
      | Except.ok none => some (Except.ok [], s2)
      | Except.ok (some v) =>
        match get_all step fuel s2 with
        | none => none
        | some (rest, sf) => some (Except.map (fun l => v :: l) rest, sf)

/-- PyIteratorValue of the source: a mutable position (a Cell, mutated through
a shared reference) and a shared reference to the iterated container.  Explicit
state passing stands in for the cell's interior mutability. -/
structure PyIteratorValue where
  position : Nat
  iterated_obj : PyObject
deriving DecidableEq

/-- PyIteratorValueRef::next of the source: classify the iterated object by
payload downcasts in source order (range, then bytes, then bytearray, then the
generic sequence fallback), bounds-check the current position against the
freshly read length of the matching view, produce the element and bump the
position on success, or raise the StopIteration sentinel. -/
def PyIteratorValue.next (self : PyIteratorValue) : PyResult PyValue × PyIteratorValue :=
  let position := self.position
  match payload_range self.iterated_obj with
  | some range =>
    match range.get position with
    | some int => (Except.ok (new_int int), { self with position := position + 1 })
    | none => (Except.error new_stop_iteration, self)
  | none =>
    match payload_bytes self.iterated_obj with
    | some bytes =>
      if h : position < bytes.length then
        (Except.ok (new_int (Int.ofNat (bytes.get ⟨position, h⟩))),
          { self with position := position + 1 })
      else (Except.error new_stop_iteration, self)
    | none =>
      match payload_bytearray self.iterated_obj with
      | some bytes =>
        if h : position < bytes.length then
          (Except.ok (new_int (Int.ofNat (bytes.get ⟨position, h⟩))),
            { self with position := position + 1 })
        else (Except.error new_stop_iteration, self)
      | none =>
        let elements := get_elements self.iterated_obj
        if h : position < elements.length then
          (Except.ok (elements.get ⟨position, h⟩), { self with position := position + 1 })
        else (Except.error new_stop_iteration, self)

/-- PyIteratorValueRef::iter of the source: an iterator is its own iterator. -/
def PyIteratorValue.iter (self : PyIteratorValue) : PyIteratorValue :=
  self

/-- The iterator state after n advance calls on the generic cursor, the
container itself not being mutated between the calls. -/
def advanceN : Nat → PyIteratorValue → PyIteratorValue
  | 0, it => it
  | n + 1, it => ((advanceN n it).next).2

/-- The current length of the walked container, as each advance re-reads it. -/
def containerLen : PyObject → Nat
  | PyObject.range r => r.elems.length
  | PyObject.bytes bs => bs.length
  | PyObject.bytearray bs => bs.length
  | PyObject.sequence es => es.length

/-- The value an advance at position k over container o produces when there is
one: the k-th element in container order, range and byte elements being
wrapped as integer values exactly as the source wraps them with new_int. -/
def produce (o : PyObject) (k : Nat) : Option PyValue :=
  match o with
  | PyObject.range r => Option.map (fun i => new_int i) (r.get k)
  | PyObject.bytes bs => Option.map (fun b => new_int (Int.ofNat b)) (bs.get? k)
  | PyObject.bytearray bs => Option.map (fun b => new_int (Int.ofNat b)) (bs.get? k)
  | PyObject.sequence es => es.get? k

/-- The four container kinds the advance distinguishes. -/
inductive ContainerKind where
  | rangeKind | bytesKind | bytearrayKind | sequenceKind
deriving DecidableEq

/-- The container-kind classification the advance performs, with the payload
downcasts tried in source order: numeric range first, then raw byte sequence,
then mutable byte buffer, any other container falling through to the generic
ordered-sequence path. -/
def classify (o : PyObject) : ContainerKind :=
  if (payload_range o).isSome then ContainerKind.rangeKind
  else if (payload_bytes o).isSome then ContainerKind.bytesKind
  else if (payload_bytearray o).isSome then ContainerKind.bytearrayKind
  else ContainerKind.sequenceKind

/-- The numeric-range branch of the advance, in isolation: the
optional-returning lookup at the current position decides between producing
the integer and raising the sentinel. -/
def range_branch (self : PyIteratorValue) (range : PyRange) :
    PyResult PyValue × PyIteratorValue :=
  match range.get self.position with
  | some int => (Except.ok (new_int int), { self with position := self.position + 1 })
  | none => (Except.error new_stop_iteration, self)

/-- The raw byte sequence branch of the advance, in isolation: bounds check
against the sequence's length, then produce the byte as an integer. -/
def bytes_branch (self : PyIteratorValue) (bytes : List Nat) :
    PyResult PyValue × PyIteratorValue :=
  if h : self.position < bytes.length then
    (Except.ok (new_int (Int.ofNat (bytes.get ⟨self.position, h⟩))),
      { self with position := self.position + 1 })
  else (Except.error new_stop_iteration, self)

/-- The mutable byte buffer branch of the advance, in isolation: the same rule
as the bytes branch, applied to the buffer's freshly borrowed current
contents. -/
def bytearray_branch (self : PyIteratorValue) (bytes : List Nat) :
    PyResult PyValue × PyIteratorValue :=
  if h : self.position < bytes.length then
    (Except.ok (new_int (Int.ofNat (bytes.get ⟨self.position, h⟩))),
      { self with position := self.position + 1 })
  else (Except.error new_stop_iteration, self)

/-- The generic ordered-sequence fallback branch of the advance, in isolation:
bounds check against the ordered-elements view, then produce a shared
reference to (here, the value of) the element. -/
def sequence_branch (self : PyIteratorValue) : PyResult PyValue × PyIteratorValue :=
  let elements := get_elements self.iterated_obj
  if h : self.position < elements.length then
    (Except.ok (elements.get ⟨self.position, h⟩), { self with position := self.position + 1 })
  else (Except.error new_stop_iteration, self)

/-- PyIteratorValueRef::next with the source's unchecked bracket indexing made
explicit: each bracket indexing of the Rust source is rendered as an optional
lookup whose none arm models the out-of-bounds panic, and the range branch
keeps its optional-returning lookup, which has no panic arm. -/
def next_unchecked (self : PyIteratorValue) :
    Option (PyResult PyValue × PyIteratorValue) :=
  let position := self.position
  match payload_range self.iterated_obj with
  | some range =>
    match range.get position with
    | some int => some (Except.ok (new_int int), { self with position := position + 1 })
    | none => some (Except.error new_stop_iteration, self)
  | none =>
    match payload_bytes self.iterated_obj with
    | some bytes =>
      if position < bytes.length then
        match bytes.get? position with
        | some b =>
          some (Except.ok (new_int (Int.ofNat b)), { self with position := position + 1 })
        | none => none
      else some (Except.error new_stop_iteration, self)
    | none =>
      match payload_bytearray self.iterated_obj with
      | some bytes =>
        if position < bytes.length then
          match bytes.get? position with
          | some b =>
            some (Except.ok (new_int (Int.ofNat b)), { self with position := position + 1 })
          | none => none
        else some (Except.error new_stop_iteration, self)
      | none =>
        let elements := get_elements self.iterated_obj
        if position < elements.length then
          match elements.get? position with
          | some v => some (Except.ok v, { self with position := position + 1 })
          | none => none
        else some (Except.error new_stop_iteration, self)

theorem next_eq_produce (p : Nat) (o : PyObject) :
    PyIteratorValue.next ⟨p, o⟩ =
      match produce o p with
      | some v => (Except.ok v, ⟨p + 1, o⟩)
      | none => (Except.error new_stop_iteration, ⟨p, o⟩) := by
  cases o with
  | range r =>
    simp only [PyIteratorValue.next, payload_range, produce]
    cases h : r.get p <;> simp [h]
  | bytes bs =>
    simp only [PyIteratorValue.next, payload_range, payload_bytes, produce]
    by_cases h : p < bs.length
    · simp [h, List.getElem?_eq_getElem h]
    · simp [h, List.getElem?_eq_none (Nat.le_of_not_lt h)]
  | bytearray bs =>
    simp only [PyIteratorValue.next, payload_range, payload_bytes, payload_bytearray, produce]
    by_cases h : p < bs.length
    · simp [h, List.getElem?_eq_getElem h]
    · simp [h, List.getElem?_eq_none (Nat.le_of_not_lt h)]
  | sequence es =>
    simp only [PyIteratorValue.next, payload_range, payload_bytes, payload_bytearray,
      get_elements, produce]
    by_cases h : p < es.length
    · simp [h, List.getElem?_eq_getElem h]
    · simp [h, List.getElem?_eq_none (Nat.le_of_not_lt h)]

theorem produce_isSome (o : PyObject) (k : Nat) :
    (produce o k).isSome ↔ k < containerLen o := by
  cases o
  all_goals
    simp [produce, containerLen, PyRange.get, Option.isSome_iff_exists,
      List.getElem?_eq_some_iff]
    constructor
    · rintro ⟨a, h, -⟩
      exact h
    · intro h
      exact ⟨_, h, rfl⟩

theorem next_snd (p : Nat) (o : PyObject) :
    (PyIteratorValue.next ⟨p, o⟩).2 =
      ⟨if p < containerLen o then p + 1 else p, o⟩ := by
  rw [next_eq_produce]
  by_cases h : p < containerLen o
  · obtain ⟨v, hv⟩ := Option.isSome_iff_exists.mp ((produce_isSome o p).mpr h)
    simp [hv, h]
  · have hn : produce o p = none := by
      cases hp : produce o p with
      | none => rfl
      | some v =>
        exact absurd ((produce_isSome o p).mp (by simp [hp])) h
    simp [hn, h]

theorem advanceN_state (o : PyObject) (p k : Nat) :
    advanceN k ⟨p, o⟩ = ⟨min (p + k) (max p (containerLen o)), o⟩ := by
  induction k with
  | zero =>
    rw [advanceN]
    congr 1
    omega
  | succ n ih =>
    rw [advanceN, ih, next_snd]
    congr 1
    split <;> omega

/-- C1: walking a container of length N with the generic cursor from position 0
yields exactly N successful advances producing the container's elements in
container order, and every advance at or past position N raises the
StopIteration sentinel; for N = 0 the very first advance raises it. -/
theorem cursor_walk_produces_elements_then_exhausts (o : PyObject) (k : Nat) :
    advanceN k ⟨0, o⟩ = ⟨min k (containerLen o), o⟩
    ∧ ((produce o k).isSome ↔ k < containerLen o)
    ∧ PyIteratorValue.next ⟨k, o⟩ =
        (match produce o k with
         | some v => (Except.ok v, ⟨k + 1, o⟩)
         | none => (Except.error new_stop_iteration, ⟨k, o⟩)) := by
  refine ⟨?_, produce_isSome o k, next_eq_produce k o⟩
  rw [advanceN_state]
  congr 1
  omega

/-- C2: advance-or-none returns no value exactly when the advance failed with a
StopIteration-kind error; a successful advance's value passes through, and an
error of any other kind propagates unchanged. -/
theorem get_next_object_downgrades_only_stop_iteration (r : PyResult PyValue) :
    (get_next_object r = Except.ok none ↔
      ∃ e, r = Except.error e ∧ isinstance_stop_iteration e = true)
    ∧ (∀ v, r = Except.ok v → get_next_object r = Except.ok (some v))
    ∧ (∀ e, r = Except.error e → isinstance_stop_iteration e = false →
        get_next_object r = Except.error e) := by
  refine ⟨?_, ?_, ?_⟩
  · cases r with
    | ok v => simp [get_next_object]
    | error e =>
      by_cases h : isinstance_stop_iteration e <;> simp [get_next_object, h]
  · intro v hv
    subst hv
    rfl
  · intro e he h
    subst he
    simp [get_next_object, h]

/-- C2 witness: the theorem applied to a produced value and to a
TypeError-kind error. -/
theorem get_next_object_downgrades_only_stop_iteration_witness :
    get_next_object (Except.ok (new_int 1)) = Except.ok (some (new_int 1))
    ∧ get_next_object (Except.error (new_exception (ExcKind.other "TypeError") "boom"))
        = Except.error (new_exception (ExcKind.other "TypeError") "boom") :=
  ⟨(get_next_object_downgrades_only_stop_iteration _).2.1 _ rfl,
   (get_next_object_downgrades_only_stop_iteration _).2.2 _ rfl (by decide)⟩

/-- C3 counterexample: exhaustion is not terminal when the container is mutated
in between.  The cursor at position 0 over an empty byte buffer reports
exhaustion (a failed advance leaves the position at 0), yet after the buffer's
cell grows to [5] the advance of the same iterator succeeds. -/
theorem exhaustion_not_terminal_under_mutation_cex :
    ¬ (∀ (it : PyIteratorValue) (o2 : PyObject) (e : PyException),
        (it.next).1 = Except.error e →
        ∀ v, ((⟨it.position, o2⟩ : PyIteratorValue).next).1 ≠ Except.ok v) := by
  intro h
  exact h ⟨0, PyObject.bytearray []⟩ (PyObject.bytearray [5]) new_stop_iteration rfl
    (new_int 5) rfl

/-- C3 amended: once an advance reports exhaustion, every subsequent advance on
the same iterator also reports exhaustion as long as the container is not
mutated in between (under mutation a later advance may succeed again). -/
theorem exhaustion_terminal_without_mutation (it : PyIteratorValue) (n : Nat)
    (e : PyException) (h : (it.next).1 = Except.error e) :
    ((advanceN n it).next).1 = Except.error new_stop_iteration := by
  obtain ⟨p, o⟩ := it
  have hlen : ¬ p < containerLen o := by
    intro hlt
    obtain ⟨v, hv⟩ := Option.isSome_iff_exists.mp ((produce_isSome o p).mpr hlt)
    rw [next_eq_produce, hv] at h
    simp at h
  have hnone : produce o p = none := by
    cases hp : produce o p with
    | none => rfl
    | some v => exact absurd ((produce_isSome o p).mp (by simp [hp])) hlen
  have hstate : min (p + n) (max p (containerLen o)) = p := by omega
  rw [advanceN_state, hstate, next_eq_produce, hnone]

/-- C3 amended witness: three advances past exhaustion of an empty byte
sequence still raise the sentinel. -/
theorem exhaustion_terminal_without_mutation_witness :
    ((advanceN 3 ⟨0, PyObject.bytes []⟩).next).1 = Except.error new_stop_iteration :=
  exhaustion_terminal_without_mutation ⟨0, PyObject.bytes []⟩ 3 new_stop_iteration rfl

/-- C4: every advance classifies the walked container by payload downcasts in
exactly the precedence order numeric range, raw byte sequence, mutable byte
buffer, generic ordered sequence, and applies the matching branch's bounds
check and extraction rule. -/
theorem next_dispatch_precedence (p : Nat) :
    (∀ r, PyIteratorValue.next ⟨p, PyObject.range r⟩ = range_branch ⟨p, PyObject.range r⟩ r
      ∧ classify (PyObject.range r) = ContainerKind.rangeKind)
    ∧ (∀ bs, PyIteratorValue.next ⟨p, PyObject.bytes bs⟩
        = bytes_branch ⟨p, PyObject.bytes bs⟩ bs
      ∧ classify (PyObject.bytes bs) = ContainerKind.bytesKind)
    ∧ (∀ bs, PyIteratorValue.next ⟨p, PyObject.bytearray bs⟩
        = bytearray_branch ⟨p, PyObject.bytearray bs⟩ bs
      ∧ classify (PyObject.bytearray bs) = ContainerKind.bytearrayKind)
    ∧ (∀ es, PyIteratorValue.next ⟨p, PyObject.sequence es⟩
        = sequence_branch ⟨p, PyObject.sequence es⟩
      ∧ classify (PyObject.sequence es) = ContainerKind.sequenceKind) :=
  ⟨fun _ => ⟨rfl, rfl⟩, fun _ => ⟨rfl, rfl⟩, fun _ => ⟨rfl, rfl⟩, fun _ => ⟨rfl, rfl⟩⟩

/-- C5: one advance either succeeds and increases the position by exactly 1, or
raises the sentinel and leaves the position unchanged; the container reference
is untouched, and the iteration-start capability, the only other operation on
the cursor, does not change the position either. -/
theorem next_position_step_invariant (it : PyIteratorValue) :
    ((it.next).2.iterated_obj = it.iterated_obj)
    ∧ ((∃ v, (it.next).1 = Except.ok v) ∧ (it.next).2.position = it.position + 1
        ∨ (it.next).1 = Except.error new_stop_iteration
          ∧ (it.next).2.position = it.position)
    ∧ (it.iter).position = it.position := by
  obtain ⟨p, o⟩ := it
  refine ⟨by rw [next_snd], ?_, rfl⟩
  rw [next_eq_produce]
  cases hp : produce o p with
  | some v => exact Or.inl ⟨⟨v, rfl⟩, rfl⟩
  | none => exact Or.inr ⟨rfl, rfl⟩

/-- C7: the iteration-start capability on the cursor returns the cursor itself
unchanged, hence idempotently, so re-entering a half-consumed cursor continues
from its current position rather than resetting. -/
theorem iter_returns_self (it : PyIteratorValue) :
    it.iter = it ∧ (it.iter).iter = it.iter ∧ (it.iter).position = it.position :=
  ⟨rfl, rfl, rfl⟩

/-- C9: new_stop_iteration always builds the StopIteration-kind exception
carrying the one fixed message, and it is the exception every exhaustion path
of the cursor's advance raises. -/
theorem new_stop_iteration_fixed_sentinel (it : PyIteratorValue) (e : PyException)
    (h : (it.next).1 = Except.error e) :
    e = new_stop_iteration
    ∧ new_stop_iteration.kind = ExcKind.stopIteration
    ∧ new_stop_iteration.msg = "End of iterator"
    ∧ isinstance_stop_iteration new_stop_iteration = true := by
  refine ⟨?_, rfl, rfl, rfl⟩
  obtain ⟨p, o⟩ := it
  rw [next_eq_produce] at h
  cases hp : produce o p with
  | some v =>
    rw [hp] at h
    simp at h
  | none =>
    rw [hp] at h
    simpa using h.symm

/-- C9 witness: the theorem applied to the first advance over an empty byte
sequence. -/
theorem new_stop_iteration_fixed_sentinel_witness :
    new_stop_iteration = new_stop_iteration
    ∧ new_stop_iteration.kind = ExcKind.stopIteration
    ∧ new_stop_iteration.msg = "End of iterator"
    ∧ isinstance_stop_iteration new_stop_iteration = true :=
  new_stop_iteration_fixed_sentinel ⟨0, PyObject.bytes []⟩ new_stop_iteration rfl

/-- C10: every unchecked indexing of the advance is guarded by a preceding
bounds check against the freshly read length: at every iterator state the panic
arm of the instrumented advance is unreachable and the instrumented advance
agrees with the advance, so the advance is total. -/
theorem next_indexing_in_bounds_total (it : PyIteratorValue) :
    next_unchecked it = some it.next := by
  obtain ⟨p, o⟩ := it
  cases o with
  | range r =>
    simp only [next_unchecked, PyIteratorValue.next, payload_range]
    cases h : r.get p <;> simp [h]
  | bytes bs =>
    simp only [next_unchecked, PyIteratorValue.next, payload_range, payload_bytes]
    by_cases h : p < bs.length
    · simp [h, List.getElem?_eq_getElem h]
    · simp [h]
  | bytearray bs =>
    simp only [next_unchecked, PyIteratorValue.next, payload_range, payload_bytes,
      payload_bytearray]
    by_cases h : p < bs.length
    · simp [h, List.getElem?_eq_getElem h]
    · simp [h]
  | sequence es =>
    simp only [next_unchecked, PyIteratorValue.next, payload_range, payload_bytes,
      payload_bytearray, get_elements]
    by_cases h : p < es.length
    · simp [h, List.getElem?_eq_getElem h]
    · simp [h]

/-- C6: get_all drains the iterator through advance-or-none, accumulating the
produced values in production order: over the sequence [a, b, c] it returns
exactly [a, b, c] and leaves the cursor exhausted, and an advance failing with
a non-StopIteration error makes get_all propagate that error and return no
sequence. -/
theorem get_all_collects_in_order :
    (∀ a b c : PyValue,
      get_all PyIteratorValue.next 4 ⟨0, PyObject.sequence [a, b, c]⟩
        = some (Except.ok [a, b, c], ⟨3, PyObject.sequence [a, b, c]⟩)
      ∧ ((⟨3, PyObject.sequence [a, b, c]⟩ : PyIteratorValue).next).1
          = Except.error new_stop_iteration)
    ∧ (∀ (σ : Type) (step : σ → PyResult PyValue × σ) (s : σ) (e : PyException)
        (fuel : Nat), (step s).1 = Except.error e → isinstance_stop_iteration e = false →
        get_all step (fuel + 1) s = some (Except.error e, (step s).2)) := by
  constructor
  · intro a b c
    exact ⟨rfl, rfl⟩
  · intro σ step s e fuel h1 h2
    rcases hstep : step s with ⟨r, s2⟩
    rw [hstep] at h1
    simp only at h1
    subst h1
    simp [get_all, hstep, get_next_object, h2]

/-- C6 witness: the error-propagation clause applied to a one-state iterator
whose advance raises a TypeError-kind error. -/
theorem get_all_collects_in_order_witness :
    get_all (fun s : Unit => (Except.error (new_exception (ExcKind.other "TypeError") "boom"), s))
        1 ()
      = some (Except.error (new_exception (ExcKind.other "TypeError") "boom"), ()) :=
  get_all_collects_in_order.2 Unit
    (fun s : Unit => (Except.error (new_exception (ExcKind.other "TypeError") "boom"), s))
    () (new_exception (ExcKind.other "TypeError") "boom") 0 rfl (by decide)

/-- C8: advances over a mutable byte buffer re-read its current length on every
call: an element appended after partial iteration is still produced by a later
advance when the position has not yet passed its index, exhaustion is reported
relative to the buffer's current length, and removing elements at or below the
position causes premature exhaustion or a skipped element. -/
theorem bytearray_mutation_visibility :
    (∀ (bs : List Nat) (x p : Nat), p ≤ bs.length →
      ((advanceN (bs.length - p) ⟨p, PyObject.bytearray (bs ++ [x])⟩).next).1
        = Except.ok (new_int (Int.ofNat x)))
    ∧ (∀ bs : List Nat,
        ((⟨bs.length, PyObject.bytearray bs⟩ : PyIteratorValue).next).1
          = Except.error new_stop_iteration)
    ∧ ((⟨2, PyObject.bytearray [1, 2, 3]⟩ : PyIteratorValue).next).1
        = Except.ok (new_int 3)
    ∧ ((⟨2, PyObject.bytearray [2, 3]⟩ : PyIteratorValue).next).1
        = Except.error new_stop_iteration
    ∧ ((⟨1, PyObject.bytearray [2, 3]⟩ : PyIteratorValue).next).1
        = Except.ok (new_int 3) := by
  refine ⟨?_, ?_, rfl, rfl, rfl⟩
  · intro bs x p hp
    have hL : containerLen (PyObject.bytearray (bs ++ [x])) = bs.length + 1 := by
      simp [containerLen]
    have hmin : min (p + (bs.length - p))
        (max p (containerLen (PyObject.bytearray (bs ++ [x])))) = bs.length := by
      rw [hL]
      omega
    have hprod : produce (PyObject.bytearray (bs ++ [x])) bs.length
        = some (new_int (Int.ofNat x)) := by
      simp [produce]
    rw [advanceN_state, hmin, next_eq_produce, hprod]
  · intro bs
    have hprod : produce (PyObject.bytearray bs) bs.length = none := by
      simp [produce]
    rw [next_eq_produce, hprod]

/-- C8 witness: the append clause applied to the buffer [5, 6] grown to
[5, 6, 7] while the cursor stands at position 1. -/
theorem bytearray_mutation_visibility_witness :
    ((advanceN 1 ⟨1, PyObject.bytearray ([5, 6] ++ [7])⟩).next).1
      = Except.ok (new_int (Int.ofNat 7)) :=
  bytearray_mutation_visibility.1 [5, 6] 7 1 (by decide)
